import Mathlib

/-!
Shallow embedding of the CM19a X10 USB driver core (`cm19adriver.py`):
the protocol codec (`_encode` / `_decode`), the byte writer (`_write_bytes`),
the send path (`send`), the receive/poll path (`receive`, `run`) and the
queue drain (`getReceiveQueue`), together with the protocol-file loader
(`_load_protocol`).

Python strings are Lean `String`s; Python byte values (arbitrary-precision
ints in the source, since they come from `int(tok, 16)`) are Lean `Int`s;
a protocol dictionary is an association list `List (String × List Int)`
whose iteration order stands for the (arbitrary) dict iteration order of
the source; fallible reads and raised exceptions become `Option` / `Except`.
-/

namespace CM19a

/-- Python's whitespace set as used by `str.strip()`. -/
def pyIsSpace (c : Char) : Bool :=
  c = ' ' || c = '\t' || c = '\n' || c = '\r' || c = '\x0b' || c = '\x0c'

/-- Embedding of Python `s.strip()`: drop leading and trailing whitespace. -/
def pyStrip (s : String) : String :=
  (((s.toList.dropWhile pyIsSpace).reverse.dropWhile pyIsSpace).reverse).asString

/-- Embedding of Python `s.upper()`: ASCII lowercase letters mapped to
uppercase, character by character. -/
def pyUpper (s : String) : String :=
  (s.toList.map Char.toUpper).asString

/-- Embedding of Python `s.replace(" ", "")`: remove every space character. -/
def removeSpaces (s : String) : String :=
  (s.toList.filter (fun c => c ≠ ' ')).asString

/-- The rendering built by `_decode`'s matching loops:
`receive_string += str(receive_sequence[i])` — decimal values concatenated
with no separator. -/
def renderString (seq : List Int) : String :=
  seq.foldl (fun acc b => acc ++ toString b) ""

/-- The rendering built by `_decode`'s fallback branch:
`receive_string += str(receive_sequence[i]) + " "` — decimal values each
followed by a space (the final `.strip()` is applied by the caller). -/
def spacedJoin (seq : List Int) : String :=
  seq.foldl (fun acc b => acc ++ toString b ++ " ") ""

/-- One matching loop of `_decode`: walk the table in iteration order and
return the first command whose byte sequence renders to `rs`
(`if receive_string == protocol_string: return_value = cmd; break`). -/
def scanTable (table : List (String × List Int)) (rs : String) : Option String :=
  match table with
  | [] => none
  | (cmd, seq) :: rest => if renderString seq = rs then some cmd else scanTable rest rs

/-- Class constant `PACKET_LENGTH = 8`. -/
def PACKET_LENGTH : Nat := 8

/-- Class constant `ACK = 0x0FF`. -/
def ACK : Int := 0x0FF

/-- `CM19aDevice._encode`: look the normalized key
`house_code.upper() + unit_number + on_off.upper()` up in the base protocol
dictionary; `none` stands for the `return False` on a missing key. -/
def _encode (protocol : List (String × List Int))
    (house_code unit_number on_off : String) : Option (List Int) :=
  protocol.lookup (pyUpper house_code ++ unit_number ++ pyUpper on_off)

/-- `CM19aDevice._decode`.  Guard: `if not (self.protocol and
self.protocol_remote)` returns `""` when either dict is empty.  Otherwise
render the inbound bytes, scan the base table, then the remote table (a
remote match overrides the base one), and if the result is still falsy
(`None` or the empty command name) fall back to the space-separated decimal
rendering; the result is returned through `return_value.strip()`. -/
def _decode (protocol protocol_remote : List (String × List Int))
    (receive_sequence : List Int) : String :=
  if protocol.isEmpty || protocol_remote.isEmpty then ""
  else
    let receive_string := renderString receive_sequence
    let base_match := scanTable protocol receive_string
    let return_value :=
      match scanTable protocol_remote receive_string with
      | some cmd => some cmd
      | none => base_match
    match return_value with
    | some cmd => if cmd.isEmpty then pyStrip (spacedJoin receive_sequence) else pyStrip cmd
    | none => pyStrip (spacedJoin receive_sequence)

/-- `CM19aDevice._write_bytes`: refuse an empty sequence, otherwise write and
report `true` only when no exception occurred and the reported byte count
equals the requested length.  `writeOutcome` models `interruptWrite`: `ok n`
is a return of `n` bytes written, `error` a raised exception. -/
def _write_bytes (writeOutcome : Except Unit Nat) (bytesequence : List Int) : Bool :=
  if bytesequence.length = 0 then false
  else
    let chars_written := match writeOutcome with | .ok n => n | .error _ => 0
    let returnval := match writeOutcome with | .ok _ => true | .error _ => false
    if chars_written ≠ bytesequence.length then false else returnval

/-- The mutable fields of a `CM19aDevice` instance that the send/receive
paths touch. -/
structure DeviceState where
  initialised : Bool
  polling : Bool
  paused : Bool
  receivequeue : List String
  receivequeuecount : Nat
  protocol : List (String × List Int)
  protocol_remote : List (String × List Int)
deriving Repr, DecidableEq

/-- `CM19aDevice.receive`: one read attempt.  `data` models the result of
`interruptRead` (`none`: exception or nothing to read).  A falsy read (no
data or an empty packet) is ignored; a decoded result equal to
`str(self.ACK)` is suppressed; anything else is appended to the queue and
counted. -/
def receive (st : DeviceState) (data : Option (List Int)) : DeviceState :=
  if !st.initialised then st
  else
    match data with
    | none => st
    | some d =>
      if d.isEmpty then st
      else
        let result := _decode st.protocol st.protocol_remote d
        if result = toString ACK then st
        else
          { st with
            receivequeue := st.receivequeue ++ [result]
            receivequeuecount := st.receivequeuecount + 1 }

/-- One iteration of the poller loop in `CM19aDevice.run`: skip the read when
paused, otherwise `receive`. -/
def pollCycle (st : DeviceState) (data : Option (List Int)) : DeviceState :=
  if st.paused then st else receive st data

/-- A run of poller iterations, one inbound-read outcome per cycle. -/
def pollCycles (st : DeviceState) (inputs : List (Option (List Int))) : DeviceState :=
  inputs.foldl pollCycle st

/-- `CM19aDevice.getReceiveQueue`: when the counter is positive, pause,
snapshot the queue, clear queue and counter, unpause, and return the
snapshot; otherwise return an empty list. -/
def getReceiveQueue (st : DeviceState) : List String × DeviceState :=
  if st.receivequeuecount > 0 then
    (st.receivequeue,
      { st with receivequeue := [], receivequeuecount := 0, paused := false })
  else ([], st)

/-- `CM19aDevice.send`: bail out when not initialised; encode (an encoding
failure returns `False` before any state is touched); pause polling, flush
one read (`flushData` models that read's outcome), write the byte sequence
(`writeOutcome` models the transport), unpause, and return the write
result. -/
def send (st : DeviceState) (flushData : Option (List Int))
    (writeOutcome : Except Unit Nat)
    (house_code unit_number function : String) : Bool × DeviceState :=
  if !st.initialised then (false, st)
  else
    match _encode st.protocol house_code unit_number function with
    | none => (false, st)
    | some command_sequence =>
      let st1 := if st.polling then { st with paused := true } else st
      let st2 := receive st1 flushData
      let result := _write_bytes writeOutcome command_sequence
      (result, { st2 with paused := false })

/-- Value of a single hexadecimal digit character, or `none`. -/
def hexDigitVal (c : Char) : Option Nat :=
  if '0' ≤ c ∧ c ≤ '9' then some (c.toNat - '0'.toNat)
  else if 'a' ≤ c ∧ c ≤ 'f' then some (c.toNat - 'a'.toNat + 10)
  else if 'A' ≤ c ∧ c ≤ 'F' then some (c.toNat - 'A'.toNat + 10)
  else none

/-- A nonempty run of hexadecimal digits read as a number. -/
def parseHexDigits (cs : List Char) : Option Nat :=
  match cs with
  | [] => none
  | _ => cs.foldlM (fun acc c => (hexDigitVal c).map (fun v => acc * 16 + v)) 0

/-- Embedding of Python `int(s, 16)`: surrounding whitespace, an optional
sign, an optional `0x`/`0X` prefix, then at least one hex digit; anything
else raises `ValueError`, modelled as `none`. -/
def pyIntHex (s : String) : Option Int :=
  let cs := (pyStrip s).toList
  let signed : Int × List Char :=
    match cs with
    | '+' :: rest => (1, rest)
    | '-' :: rest => (-1, rest)
    | _ => (1, cs)
  let digits : List Char :=
    match signed.2 with
    | '0' :: 'x' :: rest => rest
    | '0' :: 'X' :: rest => rest
    | _ => signed.2
  (parseHexDigits digits).map (fun n => signed.1 * (n : Int))

/-- Embedding of Python `s.split(sep, maxsplit)` on a single-character
separator: at most `n` splits, the remainder kept whole. -/
def pySplitMax (sep : Char) : List Char → Nat → List Char → List String
  | [], _, acc => [acc.reverse.asString]
  | c :: rest, n, acc =>
    if c = sep then
      match n with
      | 0 => pySplitMax sep rest 0 (c :: acc)
      | m + 1 => acc.reverse.asString :: pySplitMax sep rest m []
    else pySplitMax sep rest n (c :: acc)

/-- `aline.split(',', 3)` as used by `_load_protocol`. -/
def splitCommaMax3 (s : String) : List String :=
  pySplitMax ',' s.toList 3 []

/-- Embedding of Python `s.split(sep)` with no split limit. -/
def pySplit (sep : Char) : List Char → List Char → List String
  | [], acc => [acc.reverse.asString]
  | c :: rest, acc =>
    if c = sep then acc.reverse.asString :: pySplit sep rest []
    else pySplit sep rest (c :: acc)

/-- `data[3].split(',')` as used by `_load_protocol`. -/
def splitComma (s : String) : List String :=
  pySplit ',' s.toList []

/-- Python dict assignment `d[key] = v` on the association-list model:
replace the value at an existing key, else append a new pair. -/
def dictInsert (d : List (String × List Int)) (key : String) (v : List Int) :
    List (String × List Int) :=
  if (d.lookup key).isSome then
    d.map (fun p => if p.1 = key then (key, v) else p)
  else d ++ [(key, v)]

/-- The token-conversion loop of `_load_protocol`:
`command_sequence[i] = int(command_sequence[i], 16)` for every token, the
first malformed token aborting the whole conversion. -/
def parseTokens : List String → Option (List Int)
  | [] => some []
  | t :: ts =>
    match pyIntHex t, parseTokens ts with
    | some v, some vs => some (v :: vs)
    | _, _ => none

/-- The body shared by both data sections of `_load_protocol`: remove
spaces, split into house, unit, action and the comma-separated byte field,
normalize the key, and convert each byte token with `int(tok, 16)`.
A missing field raises `IndexError`, a malformed token `ValueError`. -/
def parseDataLine (aline : String) : Except String (String × List Int) :=
  match splitCommaMax3 (removeSpaces aline) with
  | [house_code, unit_number, on_off_dim, seqfield] =>
    match parseTokens (splitComma seqfield) with
    | some command_sequence =>
      .ok (pyUpper house_code ++ unit_number ++ pyUpper on_off_dim, command_sequence)
    | none => .error "ValueError: invalid literal for int() with base 16"
  | _ => .error "IndexError: list index out of range"

/-- The loop state of `_load_protocol`: the current `[SECTION]` line and the
two dictionaries built so far. -/
structure LoadState where
  sect : Option String
  protocol : List (String × List Int)
  protocol_remote : List (String × List Int)
deriving Repr, DecidableEq

/-- One line of the `_load_protocol` loop: strip; skip blanks and `#`
comments; a `[` line selects the section; data lines under the two known
sections are parsed into the matching dictionary; lines under any other
section (including none) are ignored. -/
def loadLine (st : LoadState) (rawline : String) : Except String LoadState :=
  match (pyStrip rawline).toList with
  | [] => .ok st
  | c :: _ =>
    if c = '#' then .ok st
    else if c = '[' then .ok { st with sect := some (pyStrip rawline) }
    else if st.sect = some "[CM19A X10 CODES]" then
      match parseDataLine (pyStrip rawline) with
      | .ok (key, seq) => .ok { st with protocol := dictInsert st.protocol key seq }
      | .error e => .error e
    else if st.sect = some "[X10 RF REMOTE DIM/BRIGHT CODES]" then
      match parseDataLine (pyStrip rawline) with
      | .ok (key, seq) =>
        .ok { st with protocol_remote := dictInsert st.protocol_remote key seq }
      | .error e => .error e
    else .ok st

/-- `CM19aDevice._load_protocol` over the protocol file's lines: fold
`loadLine` from empty dictionaries; an exception on any line aborts the
whole load, so a failed load yields no table at all. -/
def _load_protocol (lines : List String) :
    Except String (List (String × List Int) × List (String × List Int)) :=
  match lines.foldlM loadLine ⟨none, [], []⟩ with
  | .ok st => .ok (st.protocol, st.protocol_remote)
  | .error e => .error e

/-- Modelled from the spec: the repository's protocol file
`CM19aProtocol.ini` is not among the sources, so a sample base table is
taken from the spec's end-to-end scenario line `A,1,ON,0x20,0x34,0xCB,0x58,0xA7`. -/
def sampleBase : List (String × List Int) :=
  [("A1ON", [0x20, 0x34, 0xCB, 0x58, 0xA7])]

/-- Modelled from the spec: a sample remote-extras table in the
`[X10 RF REMOTE DIM/BRIGHT CODES]` format (one dim code), standing in for
the missing `CM19aProtocol.ini` remote section. -/
def sampleRemote : List (String × List Int) :=
  [("A1DIM", [0x20, 0x44, 0xBB, 0x58, 0xA7])]

/-- A sample fully initialised device state over the sample tables, for
concrete witnesses. -/
def sampleState : DeviceState :=
  { initialised := true
    polling := true
    paused := false
    receivequeue := []
    receivequeuecount := 0
    protocol := sampleBase
    protocol_remote := sampleRemote }

theorem isEmpty_false_of_ne {α : Type} {l : List α} (h : l ≠ []) : l.isEmpty = false := by
  cases l with
  | nil => exact absurd rfl h
  | cons a t => rfl

theorem lookup_mem {l : List (String × List Int)} {k : String} {v : List Int}
    (h : l.lookup k = some v) : (k, v) ∈ l := by
  induction l with
  | nil => simp [List.lookup] at h
  | cons p rest ih =>
    obtain ⟨k0, v0⟩ := p
    rw [List.lookup] at h
    split at h
    · next heq =>
      cases h
      have hk : k = k0 := eq_of_beq heq
      subst hk
      exact List.mem_cons_self _ _
    · exact List.mem_cons_of_mem _ (ih h)

/-- The first matching loop stops at the unique command whose rendering
matches. -/
theorem scanTable_eq_some {table : List (String × List Int)} {key : String} {seq : List Int}
    (hmem : (key, seq) ∈ table)
    (huniq : ∀ p ∈ table, renderString p.2 = renderString seq → p.1 = key) :
    scanTable table (renderString seq) = some key := by
  induction table with
  | nil => simp at hmem
  | cons p rest ih =>
    obtain ⟨c, s⟩ := p
    rw [scanTable]
    by_cases hr : renderString s = renderString seq
    · rw [if_pos hr]
      exact congrArg some (huniq (c, s) (List.mem_cons_self _ _) hr)
    · rw [if_neg hr]
      rcases List.mem_cons.mp hmem with h1 | h1
      · cases h1
        exact absurd rfl hr
      · exact ih h1 fun p hp h => huniq p (List.mem_cons_of_mem _ hp) h

/-- A matching loop over a table with no rendering equal to `rs` finds
nothing. -/
theorem scanTable_eq_none {table : List (String × List Int)} {rs : String}
    (h : ∀ p ∈ table, renderString p.2 ≠ rs) : scanTable table rs = none := by
  induction table with
  | nil => rfl
  | cons p rest ih =>
    obtain ⟨c, s⟩ := p
    rw [scanTable, if_neg (h (c, s) (List.mem_cons_self _ _))]
    exact ih fun p hp => h p (List.mem_cons_of_mem _ hp)

/-- `_decode` on non-empty tables, with the loaded-guard discharged. -/
theorem _decode_of_loaded {base remote : List (String × List Int)} (rs : List Int)
    (hb : base ≠ []) (hr : remote ≠ []) :
    _decode base remote rs =
      (match
        (match scanTable remote (renderString rs) with
         | some cmd => some cmd
         | none => scanTable base (renderString rs)) with
       | some cmd => if cmd.isEmpty then pyStrip (spacedJoin rs) else pyStrip cmd
       | none => pyStrip (spacedJoin rs)) := by
  unfold _decode
  rw [isEmpty_false_of_ne hb, isEmpty_false_of_ne hr]
  rfl

/-- C10: if the base protocol table is non-empty but the remote-extras table
is empty, `_decode` returns the empty string for every input byte sequence —
the loaded-guard `if not (self.protocol and self.protocol_remote)` treats the
protocol as not loaded unless both tables are non-empty, so the fallback
rendering is never produced in that state. -/
theorem decode_empty_remote_blank (base : List (String × List Int)) (rs : List Int)
    (hb : base ≠ []) : _decode base [] rs = "" := by
  unfold _decode
  rw [isEmpty_false_of_ne hb]
  rfl

theorem decode_empty_remote_blank_witness :
    sampleBase ≠ [] ∧ _decode sampleBase [] [9, 8] = "" :=
  ⟨by decide, decode_empty_remote_blank sampleBase [9, 8] (by decide)⟩

/-- C9: two distinct byte sequences that `_decode` maps to the same table
command name: matching concatenates the decimal renderings with no
separator, so `[0x20, 0x34, 0xCB, 0x58, 0xA7]` (rendering `"325220388167"`)
and the digit-by-digit sequence `[3, 2, 5, 2, 2, 0, 3, 8, 8, 1, 6, 7]`
(same rendering) both decode to `"A1ON"`. -/
theorem decode_rendering_collision :
    ∃ rs1 rs2 : List Int, rs1 ≠ rs2 ∧
      _decode sampleBase sampleRemote rs1 = "A1ON" ∧
      _decode sampleBase sampleRemote rs2 = "A1ON" :=
  ⟨[0x20, 0x34, 0xCB, 0x58, 0xA7], [3, 2, 5, 2, 2, 0, 3, 8, 8, 1, 6, 7],
    by decide, by decide, by decide⟩

/-- C2: when a byte sequence's rendering matches an entry in both the base
table and the remote-extras table, `_decode` returns the remote-extras
command name — the second matching loop overrides the result of the
first. -/
theorem decode_remote_overrides_base (base remote : List (String × List Int))
    (rs : List Int) (cb cr : String)
    (hbase : scanTable base (renderString rs) = some cb)
    (hrem : scanTable remote (renderString rs) = some cr)
    (hne : cr ≠ "") (hclean : pyStrip cr = cr) :
    _decode base remote rs = cr := by
  have hb : base ≠ [] := by
    intro h
    subst h
    simp [scanTable] at hbase
  have hr : remote ≠ [] := by
    intro h
    subst h
    simp [scanTable] at hrem
  rw [_decode_of_loaded rs hb hr, hrem]
  have : cr.isEmpty = false := by
    cases hcr : cr.isEmpty
    · rfl
    · exact absurd ((String.isEmpty_iff cr).mp hcr) hne
  simp [this, hclean]

theorem decode_remote_overrides_base_witness :
    _decode [("B2ON", [1, 2, 3])] [("B7DIM", [1, 2, 3])] [1, 2, 3] = "B7DIM" :=
  decode_remote_overrides_base [("B2ON", [1, 2, 3])] [("B7DIM", [1, 2, 3])]
    [1, 2, 3] "B2ON" "B7DIM" (by decide) (by decide) (by decide) (by decide)

/-- C8: a byte sequence whose rendering matches neither table decodes, on
loaded tables, to the space-separated decimal rendering of its bytes (the
fallback built byte by byte as `str(b) + " "` and then stripped), not to an
error. -/
theorem decode_unknown_bytes_fallback (base remote : List (String × List Int))
    (rs : List Int) (hb : base ≠ []) (hr : remote ≠ [])
    (hnb : ∀ p ∈ base, renderString p.2 ≠ renderString rs)
    (hnr : ∀ p ∈ remote, renderString p.2 ≠ renderString rs) :
    _decode base remote rs = pyStrip (spacedJoin rs) := by
  rw [_decode_of_loaded rs hb hr, scanTable_eq_none hnr, scanTable_eq_none hnb]

theorem decode_unknown_bytes_fallback_witness :
    sampleBase ≠ [] ∧ _decode sampleBase sampleRemote [9, 8, 255] = "9 8 255" := by
  refine ⟨by decide, ?_⟩
  have h := decode_unknown_bytes_fallback sampleBase sampleRemote [9, 8, 255]
    (by decide) (by decide) (by decide) (by decide)
  rw [h]
  decide

/-- C1: for a (house, unit, action) key present in the base table,
`_decode (_encode house unit action)` yields the normalized key
`house.upper() + unit + action.upper()`, provided the decode guard is
satisfiable (the remote table is non-empty) and the key's byte rendering is
unambiguous, as the spec expects of the loaded tables: no other base entry
and no remote entry shares the rendering. -/
theorem encode_decode_round_trip (base remote : List (String × List Int))
    (house unit action : String) (seq : List Int)
    (henc : _encode base house unit action = some seq)
    (hrem_ne : remote ≠ [])
    (huniq : ∀ p ∈ base, renderString p.2 = renderString seq →
      p.1 = pyUpper house ++ unit ++ pyUpper action)
    (hrem : ∀ p ∈ remote, renderString p.2 ≠ renderString seq)
    (hkey_ne : pyUpper house ++ unit ++ pyUpper action ≠ "")
    (hkey_clean : pyStrip (pyUpper house ++ unit ++ pyUpper action) =
      pyUpper house ++ unit ++ pyUpper action) :
    _decode base remote seq = pyUpper house ++ unit ++ pyUpper action := by
  have hmem : (pyUpper house ++ unit ++ pyUpper action, seq) ∈ base := lookup_mem henc
  have hb : base ≠ [] := by
    intro h
    subst h
    simp at hmem
  rw [_decode_of_loaded seq hb hrem_ne, scanTable_eq_none hrem,
    scanTable_eq_some hmem huniq]
  have : (pyUpper house ++ unit ++ pyUpper action).isEmpty = false := by
    cases hk : (pyUpper house ++ unit ++ pyUpper action).isEmpty
    · rfl
    · exact absurd ((String.isEmpty_iff _).mp hk) hkey_ne
  simp [this, hkey_clean]

theorem encode_decode_round_trip_witness :
    _encode sampleBase "a" "1" "on" = some [0x20, 0x34, 0xCB, 0x58, 0xA7] ∧
    _decode sampleBase sampleRemote [0x20, 0x34, 0xCB, 0x58, 0xA7] = "A1ON" := by
  refine ⟨by decide, ?_⟩
  have h := encode_decode_round_trip sampleBase sampleRemote "a" "1" "on"
    [0x20, 0x34, 0xCB, 0x58, 0xA7] (by decide) (by decide) (by decide) (by decide)
    (by decide) (by decide)
  rw [h]
  decide

/-- `_write_bytes` succeeds exactly when the transport reports the full
requested length back (for a non-empty sequence). -/
theorem _write_bytes_true_iff (w : Except Unit Nat) (bs : List Int) (hne : bs ≠ []) :
    _write_bytes w bs = true ↔ w = Except.ok bs.length := by
  have h0 : ¬bs.length = 0 := fun h => hne (List.length_eq_zero.mp h)
  cases w with
  | ok n =>
    by_cases hn : n = bs.length
    · subst hn
      simp [_write_bytes, h0]
    · simp [_write_bytes, h0, hn]
  | error e =>
    simp [_write_bytes, h0]

/-- C5: on an initialised device and a key that encodes to a (non-empty)
byte sequence, `send` returns `true` exactly when the transport accepts the
whole sequence (`interruptWrite` returns the requested byte count); a
transport exception or a short write yields `false` and no exception
escapes (the result is an ordinary boolean). -/
theorem send_true_iff_full_write (st : DeviceState) (flushData : Option (List Int))
    (w : Except Unit Nat) (house unit action : String) (seq : List Int)
    (hinit : st.initialised = true)
    (henc : _encode st.protocol house unit action = some seq)
    (hne : seq ≠ []) :
    (send st flushData w house unit action).1 = true ↔ w = Except.ok seq.length := by
  unfold send
  rw [hinit, henc]
  simpa using _write_bytes_true_iff w seq hne

theorem send_true_iff_full_write_witness :
    ((send sampleState none (Except.ok 5) "A" "1" "ON").1 = true ↔
      (Except.ok 5 : Except Unit Nat) =
        Except.ok ([(0x20 : Int), 0x34, 0xCB, 0x58, 0xA7].length)) ∧
    (send sampleState none (Except.ok 3) "A" "1" "ON").1 = false ∧
    (send sampleState none (Except.error ()) "A" "1" "ON").1 = false := by
  refine ⟨?_, by decide, by decide⟩
  exact send_true_iff_full_write sampleState none (Except.ok 5) "A" "1" "ON"
    [0x20, 0x34, 0xCB, 0x58, 0xA7] rfl (by decide) (by decide)

/-- C6: when the normalized key is absent from the base table, `send`
returns `false` with the whole device state unchanged — the encoding check
comes before the pause flag is touched, the flush read, and the transport
write, so the protocol tables, the receive queue, its counter and the
paused flag are exactly as before the call. -/
theorem send_unknown_key_no_mutation (st : DeviceState) (flushData : Option (List Int))
    (w : Except Unit Nat) (house unit action : String)
    (habs : st.protocol.lookup (pyUpper house ++ unit ++ pyUpper action) = none) :
    send st flushData w house unit action = (false, st) := by
  unfold send
  rw [show _encode st.protocol house unit action = none from habs]
  cases hi : st.initialised <;> rfl

theorem send_unknown_key_no_mutation_witness :
    send sampleState none (Except.ok 5) "Z" "99" "FOO" = (false, sampleState) :=
  send_unknown_key_no_mutation sampleState none (Except.ok 5) "Z" "99" "FOO" (by decide)

/-- C3 counterexample: over the loaded sample tables, decoding the
all-0xFF packet of the defined packet length does not yield the ACK
sentinel `str(self.ACK) = "255"` — it yields the fallback rendering
`"255 255 255 255 255 255 255 255"` — and the receive step appends that
result to the queue instead of suppressing it. -/
theorem ack_packet_decode_counterexample :
    _decode sampleBase sampleRemote (List.replicate PACKET_LENGTH ACK) ≠ toString ACK ∧
    _decode sampleBase sampleRemote (List.replicate PACKET_LENGTH ACK) =
      "255 255 255 255 255 255 255 255" ∧
    (receive sampleState (some (List.replicate PACKET_LENGTH ACK))).receivequeue =
      ["255 255 255 255 255 255 255 255"] := by
  refine ⟨by decide, by decide, by decide⟩

/-- C3 amended: the sentinel equal to `str(self.ACK)` is the decode of the
single-byte 0xFF packet (on loaded tables in which no entry renders to
`"255"`), and the receive step never appends that sentinel to the receive
queue. -/
theorem single_byte_ack_suppressed (base remote : List (String × List Int))
    (st : DeviceState) (data : Option (List Int))
    (hb : base ≠ []) (hr : remote ≠ [])
    (hbase : ∀ p ∈ base, renderString p.2 ≠ "255")
    (hrem : ∀ p ∈ remote, renderString p.2 ≠ "255") :
    _decode base remote [ACK] = toString ACK ∧
    (toString ACK ∉ st.receivequeue →
      toString ACK ∉ (receive st data).receivequeue) := by
  constructor
  · have h255 : renderString [ACK] = "255" := by decide
    rw [_decode_of_loaded [ACK] hb hr]
    rw [h255, scanTable_eq_none hbase, scanTable_eq_none hrem]
    decide
  · intro hmem
    unfold receive
    cases hi : st.initialised
    · simpa using hmem
    · simp only [Bool.not_true]
      cases data with
      | none => simpa using hmem
      | some d =>
        by_cases hd : d.isEmpty
        · simp [hd, hmem]
        · simp only [hd, if_false, Bool.false_eq_true, if_neg]
          by_cases hack : _decode st.protocol st.protocol_remote d = toString ACK
          · simp [hack, hmem]
          · simp [hack, hmem, List.mem_append]
            exact fun h => hack h.symm

theorem single_byte_ack_suppressed_witness :
    (_decode sampleBase sampleRemote [ACK] = toString ACK ∧
      (toString ACK ∉ sampleState.receivequeue →
        toString ACK ∉ (receive sampleState (some [ACK])).receivequeue)) :=
  single_byte_ack_suppressed sampleBase sampleRemote sampleState (some [ACK])
    (by decide) (by decide) (by decide) (by decide)

/-- The commands one poll cycle appends to the queue, as a function of the
cycle's read outcome and of the control fields that `receive` leaves
unchanged: nothing while paused, nothing on a falsy read or the ACK
sentinel, otherwise the one decoded command. -/
def cycleOutput (st : DeviceState) (data : Option (List Int)) : List String :=
  if st.paused then []
  else if !st.initialised then []
  else
    match data with
    | none => []
    | some d =>
      if d.isEmpty then []
      else
        let result := _decode st.protocol st.protocol_remote d
        if result = toString ACK then [] else [result]

theorem pollCycle_queue (st : DeviceState) (data : Option (List Int)) :
    (pollCycle st data).receivequeue = st.receivequeue ++ cycleOutput st data := by
  unfold pollCycle cycleOutput receive
  by_cases hp : st.paused
  · simp [hp]
  · simp only [hp, if_false]
    cases hi : st.initialised
    · simp
    · simp only [Bool.not_true]
      cases data with
      | none => simp
      | some d =>
        by_cases hd : d.isEmpty
        · simp [hd]
        · by_cases hack : _decode st.protocol st.protocol_remote d = toString ACK
          · simp [hd, hack]
          · simp [hd, hack]

theorem pollCycle_fields (st : DeviceState) (data : Option (List Int)) :
    (pollCycle st data).paused = st.paused ∧
    (pollCycle st data).initialised = st.initialised ∧
    (pollCycle st data).protocol = st.protocol ∧
    (pollCycle st data).protocol_remote = st.protocol_remote := by
  unfold pollCycle receive
  by_cases hp : st.paused
  · simp [hp]
  · simp only [hp, if_false]
    cases hi : st.initialised
    · simp [hp, hi]
    · simp only [Bool.not_true]
      cases data with
      | none => simp [hp, hi]
      | some d =>
        by_cases hd : d.isEmpty
        · simp [hp, hi, hd]
        · by_cases hack : _decode st.protocol st.protocol_remote d = toString ACK
          · simp [hp, hi, hd, hack]
          · simp [hp, hi, hd, hack]

theorem cycleOutput_congr {st1 st2 : DeviceState}
    (hp : st1.paused = st2.paused) (hi : st1.initialised = st2.initialised)
    (hpr : st1.protocol = st2.protocol)
    (hprr : st1.protocol_remote = st2.protocol_remote) :
    cycleOutput st1 = cycleOutput st2 := by
  funext data
  unfold cycleOutput
  rw [hp, hi, hpr, hprr]

/-- The queue after a run of poll cycles is the starting queue followed by
each cycle's appended commands, in cycle order. -/
theorem pollCycles_queue (inputs : List (Option (List Int))) (st : DeviceState) :
    (pollCycles st inputs).receivequeue =
      st.receivequeue ++ (inputs.map (cycleOutput st)).flatten := by
  induction inputs generalizing st with
  | nil => simp [pollCycles]
  | cons d ds ih =>
    have h1 : pollCycles st (d :: ds) = pollCycles (pollCycle st d) ds := rfl
    obtain ⟨hp, hi, hpr, hprr⟩ := pollCycle_fields st d
    rw [h1, ih (pollCycle st d), pollCycle_queue,
      cycleOutput_congr hp hi hpr hprr]
    simp [List.append_assoc]

theorem pollCycle_count_len (st : DeviceState) (data : Option (List Int))
    (h : st.receivequeuecount = st.receivequeue.length) :
    (pollCycle st data).receivequeuecount = (pollCycle st data).receivequeue.length := by
  unfold pollCycle receive
  by_cases hp : st.paused
  · simpa [hp] using h
  · simp only [hp, if_false]
    cases hi : st.initialised
    · simpa using h
    · simp only [Bool.not_true]
      cases data with
      | none => simpa using h
      | some d =>
        by_cases hd : d.isEmpty
        · simpa [hd] using h
        · by_cases hack : _decode st.protocol st.protocol_remote d = toString ACK
          · simpa [hd, hack] using h
          · simp [hd, hack, h]

theorem pollCycles_count_len (inputs : List (Option (List Int))) (st : DeviceState)
    (h : st.receivequeuecount = st.receivequeue.length) :
    (pollCycles st inputs).receivequeuecount =
      (pollCycles st inputs).receivequeue.length := by
  induction inputs generalizing st with
  | nil => exact h
  | cons d ds ih => exact ih (pollCycle st d) (pollCycle_count_len st d h)

theorem getReceiveQueue_pos {st : DeviceState} (h : 0 < st.receivequeuecount) :
    getReceiveQueue st =
      (st.receivequeue,
        { st with receivequeue := [], receivequeuecount := 0, paused := false }) := by
  unfold getReceiveQueue
  rw [if_pos h]

theorem getReceiveQueue_zero {st : DeviceState} (h : ¬0 < st.receivequeuecount) :
    getReceiveQueue st = ([], st) := by
  unfold getReceiveQueue
  rw [if_neg h]

/-- C4: starting from an empty queue, a run of poll cycles appends its
commands in cycle order, a single `getReceiveQueue` call returns exactly
that sequence and empties the queue, and an immediately following call
returns the empty sequence. -/
theorem getReceiveQueue_drains_all (st : DeviceState) (inputs : List (Option (List Int)))
    (hq : st.receivequeue = []) (hc : st.receivequeuecount = 0) :
    (getReceiveQueue (pollCycles st inputs)).1 = (inputs.map (cycleOutput st)).flatten ∧
    ((getReceiveQueue (pollCycles st inputs)).2).receivequeue = [] ∧
    (getReceiveQueue ((getReceiveQueue (pollCycles st inputs)).2)).1 = [] := by
  have hqq : (pollCycles st inputs).receivequeue = (inputs.map (cycleOutput st)).flatten := by
    rw [pollCycles_queue, hq, List.nil_append]
  have hcl : (pollCycles st inputs).receivequeuecount =
      (pollCycles st inputs).receivequeue.length := by
    refine pollCycles_count_len inputs st ?_
    rw [hq, hc]
    rfl
  by_cases h1 : 0 < (pollCycles st inputs).receivequeuecount
  · rw [getReceiveQueue_pos h1]
    refine ⟨hqq, rfl, ?_⟩
    rw [getReceiveQueue_zero (by simp)]
  · rw [getReceiveQueue_zero h1]
    have hlen : (pollCycles st inputs).receivequeue.length = 0 := by
      rw [← hcl]
      omega
    have hnil : (pollCycles st inputs).receivequeue = [] := List.length_eq_zero.mp hlen
    refine ⟨?_, hnil, ?_⟩
    · rw [← hqq, hnil]
    · rw [getReceiveQueue_zero h1]

theorem getReceiveQueue_drains_all_witness :
    (getReceiveQueue (pollCycles sampleState
        [some [0x20, 0x34, 0xCB, 0x58, 0xA7], none, some [9, 8]])).1 =
      (([some ([0x20, 0x34, 0xCB, 0x58, 0xA7] : List Int), none,
          some [9, 8]]).map (cycleOutput sampleState)).flatten ∧
    ((getReceiveQueue (pollCycles sampleState
        [some [0x20, 0x34, 0xCB, 0x58, 0xA7], none, some [9, 8]])).2).receivequeue = [] ∧
    (getReceiveQueue ((getReceiveQueue (pollCycles sampleState
        [some [0x20, 0x34, 0xCB, 0x58, 0xA7], none, some [9, 8]])).2)).1 = [] :=
  getReceiveQueue_drains_all sampleState
    [some [0x20, 0x34, 0xCB, 0x58, 0xA7], none, some [9, 8]] rfl rfl

/-- A malformed token makes the whole token conversion of a data line
fail, wherever it sits in the list. -/
theorem parseTokens_none {toks : List String} {tok : String}
    (hmem : tok ∈ toks) (hbad : pyIntHex tok = none) :
    parseTokens toks = none := by
  induction toks with
  | nil => simp at hmem
  | cons t ts ih =>
    rcases List.mem_cons.mp hmem with h | h
    · subst h
      simp [parseTokens, hbad]
    · cases ht : pyIntHex t
      · simp [parseTokens, ht]
      · simp [parseTokens, ht, ih h]

theorem parseDataLine_error {aline : String} {h u a sf tok : String}
    (hsplit : splitCommaMax3 (removeSpaces aline) = [h, u, a, sf])
    (htok : tok ∈ splitComma sf) (hbad : pyIntHex tok = none) :
    parseDataLine aline = .error "ValueError: invalid literal for int() with base 16" := by
  unfold parseDataLine
  rw [hsplit]
  dsimp only
  rw [parseTokens_none htok hbad]

theorem loadLine_error {st : LoadState} {rawline : String} {c : Char} {cs : List Char}
    {e : String}
    (hc : (pyStrip rawline).toList = c :: cs) (hc1 : c ≠ '#') (hc2 : c ≠ '[')
    (hsect : st.sect = some "[CM19A X10 CODES]" ∨
      st.sect = some "[X10 RF REMOTE DIM/BRIGHT CODES]")
    (hparse : parseDataLine (pyStrip rawline) = .error e) :
    loadLine st rawline = .error e := by
  unfold loadLine
  rw [hc]
  dsimp only
  rw [if_neg hc1, if_neg hc2]
  rcases hsect with h | h
  · rw [if_pos h, hparse]
  · have h1 : ¬st.sect = some "[CM19A X10 CODES]" := by
      rw [h]
      decide
    rw [if_neg h1, if_pos h, hparse]

/-- C7: a protocol-file source containing, under one of the two recognized
byte-table sections, a data line one of whose byte tokens is malformed hex
makes `_load_protocol` fail with the conversion error — the whole load
aborts and no table (not even a partial one) is produced. -/
theorem load_malformed_hex_fails (pre post : List String) (line : String)
    (st1 : LoadState) (c : Char) (cs : List Char) (hfield ufield afield sfield tok : String)
    (hpre : pre.foldlM loadLine ⟨none, [], []⟩ = .ok st1)
    (hsect : st1.sect = some "[CM19A X10 CODES]" ∨
      st1.sect = some "[X10 RF REMOTE DIM/BRIGHT CODES]")
    (hc : (pyStrip line).toList = c :: cs) (hc1 : c ≠ '#') (hc2 : c ≠ '[')
    (hsplit : splitCommaMax3 (removeSpaces (pyStrip line)) =
      [hfield, ufield, afield, sfield])
    (htok : tok ∈ splitComma sfield) (hbad : pyIntHex tok = none) :
    _load_protocol (pre ++ line :: post) =
      .error "ValueError: invalid literal for int() with base 16" ∧
    ∀ tables, _load_protocol (pre ++ line :: post) ≠ .ok tables := by
  have hparse := parseDataLine_error hsplit htok hbad
  have hline := loadLine_error hc hc1 hc2 hsect hparse
  have hfold : (pre ++ line :: post).foldlM loadLine ⟨none, [], []⟩ =
      .error "ValueError: invalid literal for int() with base 16" := by
    rw [List.foldlM_append, hpre]
    show (line :: post).foldlM loadLine st1 = _
    rw [List.foldlM_cons, hline]
    rfl
  constructor
  · unfold _load_protocol
    rw [hfold]
  · intro tables h
    unfold _load_protocol at h
    rw [hfold] at h
    exact Except.noConfusion h

theorem load_malformed_hex_fails_witness :
    _load_protocol (["[CM19A X10 CODES]"] ++ "A,1,ON,0x20,0xZZ" :: ["B,2,OFF,0x20"]) =
      .error "ValueError: invalid literal for int() with base 16" ∧
    ∀ tables,
      _load_protocol (["[CM19A X10 CODES]"] ++ "A,1,ON,0x20,0xZZ" :: ["B,2,OFF,0x20"]) ≠
        .ok tables :=
  load_malformed_hex_fails ["[CM19A X10 CODES]"] ["B,2,OFF,0x20"] "A,1,ON,0x20,0xZZ"
    ⟨some "[CM19A X10 CODES]", [], []⟩ 'A' ",1,ON,0x20,0xZZ".toList
    "A" "1" "ON" "0x20,0xZZ" "0xZZ"
    (by rfl) (Or.inl rfl) (by decide) (by decide) (by decide)
    (by decide) (by decide) (by decide)

/-- Sanity check of the loader embedding on a well-formed source: comments
are skipped, whitespace and case are normalized, and hex tokens become byte
values in the base table. -/
theorem load_wellformed_source :
    _load_protocol ["# c", "[CM19A X10 CODES]", "a, 1, on, 0x20,0x34,0xCB,0x58,0xA7"]
    = .ok ([("A1ON", [0x20, 0x34, 0xCB, 0x58, 0xA7])], []) := by rfl

end CM19a
